import Mathlib

/-! Shallow embedding of `crates/maple_core/src/stdio_server/provider/hooks/on_move.rs`
(vim-clap preview pipeline), together with theorems checking the
natural-language specification against it.

Conventions of the embedding:
* Rust `String`/`&str` is Lean `String` (a wrapper around `List Char`);
  byte lengths are computed with `Char.utf8Size`.
* `usize` is `Nat`; bare `a - b` subtractions in the Rust source (which wrap
  in release builds) are modeled with `usizeSub` (wraparound at `2 ^ 64`);
  `saturating_sub` is Nat truncated subtraction.
* The `(x as f32 / y as f32) as usize` scrollbar divisions are modeled as
  exact truncated division `x / y` on `Nat`; every concrete input used in a
  counterexample below is exactly representable in `f32`, so the modeled
  value agrees with the IEEE-754 one there.
* Code from sibling crates (`pattern`, `previewer`, `ctags`, the highlight
  engines, the filesystem) is not part of the source under verification; it
  enters either as an explicit function/value parameter or, where a claim
  needs a concrete behaviour, as a definition modelled from the spec.
* A Rust operation that can panic is modeled with an `Option`/`RustOutcome`
  whose `none`/`panicked` value marks the panic.
-/

/-- Wrapping `usize` subtraction: Rust release-profile semantics of `a - b`
for operands below `2 ^ 64`. -/
def usizeSub (a b : Nat) : Nat :=
  if b ≤ a then a - b else a + 2 ^ 64 - b

/-- UTF-8 byte length of a character sequence (Rust `str::len`). -/
def utf8Len : List Char → Nat
  | [] => 0
  | c :: cs => c.utf8Size + utf8Len cs

/-- Whether byte index `n` is a character boundary of the UTF-8 encoding of
`cs` (including the end-of-string position). Rust string slicing panics on a
byte index that is not a boundary. -/
def isCharBoundary : List Char → Nat → Bool
  | _, 0 => true
  | [], _ + 1 => false
  | c :: cs, n + 1 =>
    if c.utf8Size ≤ n + 1 then isCharBoundary cs (n + 1 - c.utf8Size) else false

/-- The characters of the byte-prefix of length `n` (defined when `n` is a
character boundary). -/
def takeBytes : List Char → Nat → List Char
  | _, 0 => []
  | [], _ + 1 => []
  | c :: cs, n + 1 =>
    if c.utf8Size ≤ n + 1 then c :: takeBytes cs (n + 1 - c.utf8Size) else []

/-- Embedding of the per-line preparation in the SublimeSyntax arm of
`fetch_syntax_highlights`:
`let len = s.len().min(max_len); &s[..len]`.
The result is `none` when the byte slice panics (the index is not a
character boundary). -/
def sublimeSliceLine (s : List Char) (maxLen : Nat) : Option (List Char) :=
  let len := min (utf8Len s) maxLen
  if isCharBoundary s len then some (takeBytes s len) else none

/-- The whole `lines.iter().map(...)` of the SublimeSyntax arm, consumed by
`sublime_syntax_highlight`; `none` when some line's byte slice panics. -/
def sublimePrepLines (lines : List (List Char)) (maxLineWidth : Nat) :
    Option (List (List Char)) :=
  lines.mapM (fun s => sublimeSliceLine s maxLineWidth)

/-- Structure `VimSyntaxInfo` of the source; the Rust field `syntax` is called
`syntax_name` here. -/
structure VimSyntaxInfo where
  syntax_name : String := ""
  fname : String := ""
deriving DecidableEq

/-- Constructor `VimSyntaxInfo::syntax`: populate only the syntax name. -/
def VimSyntaxInfo.syntax_only (s : String) : VimSyntaxInfo := { syntax_name := s }

/-- Constructor `VimSyntaxInfo::fname`: populate only the fallback filename. -/
def VimSyntaxInfo.fname_only (f : String) : VimSyntaxInfo := { fname := f }

/-- Type `TokenHighlight` of the external `sublime_syntax` crate (an opaque span
payload as far as this module is concerned). -/
structure TokenHighlight where
  start : Nat
  len : Nat
  group : String
deriving DecidableEq

/-- Alias `SublimeHighlights = Vec<(usize, Vec<TokenHighlight>)>`. -/
abbrev SublimeHighlights := List (Nat × List TokenHighlight)

/-- Alias `TsHighlights = Vec<(usize, Vec<(usize, usize, String)>)>`. -/
abbrev TsHighlights := List (Nat × List (Nat × Nat × String))

/-- Structure `Preview` of the source, with the same defaults as `Default::default()`. -/
structure Preview where
  lines : List String := []
  vim_syntax_info : VimSyntaxInfo := {}
  sublime_syntax_highlights : SublimeHighlights := []
  tree_sitter_highlights : TsHighlights := []
  hi_lnum : Option Nat := none
  scrollbar : Option (Nat × Nat) := none
deriving DecidableEq

/-- Constructor `Preview::new`. -/
def Preview.new (lines : List String) : Preview := { lines := lines }

/-- Constructor `Preview::new_file_preview`. -/
def Preview.new_file_preview (lines : List String) (scrollbar : Option (Nat × Nat))
    (vim_syntax_info : VimSyntaxInfo) : Preview :=
  { lines := lines, vim_syntax_info := vim_syntax_info, scrollbar := scrollbar }

/-- Enum `PreviewTarget` of the source. Paths are plain strings. -/
inductive PreviewTarget where
  | Directory (path : String)
  | File (path : String)
  | LineInFile (path : String) (line_number : Nat)
  | GitCommit (rev : String)
  | HelpTags (subject : String) (doc_filename : String) (runtimepath : String)
deriving DecidableEq

/-- The editor environment flags consumed from `ctx.env`, with
`should_add_scrollbar` kept abstract as a predicate (its resolution
threshold lives outside this module). -/
structure Env where
  is_nvim : Bool
  has_nvim_09 : Bool
  icon_enabled : Bool
  display_line_width : Nat
  display_winheight : Nat
  preview_border_enabled : Bool
  should_add_scrollbar : Nat → Bool
  start_buffer_path : String

/-- The slice of `Context` that `parse_preview_target` and the preview
builders read. -/
structure Context where
  provider_id : String
  cwd : String
  env : Env

/-- Append two path segments the way `PathBuf::join` does for the inputs in
use here: an absolute right-hand side replaces the base. -/
def pathJoin (base rel : String) : String :=
  match rel.data with
  | '/' :: _ => rel
  | _ => String.mk (base.data ++ '/' :: rel.data)

/-- Rust `fpath.strip_prefix("./").unwrap_or(fpath)`. -/
def stripDotSlash (s : String) : String :=
  match s.data with
  | '.' :: '/' :: rest => String.mk rest
  | _ => s

/-- Rust `curline.starts_with('~')`. -/
def startsWithTilde (s : String) : Bool :=
  match s.data with
  | '~' :: _ => true
  | _ => false

/-- Kernel-reducible splitting of a character sequence at a separator. -/
def splitOnCharAux (sep : Char) : List Char → List Char → List (List Char)
  | [], acc => [acc.reverse]
  | c :: cs, acc =>
    if c = sep then acc.reverse :: splitOnCharAux sep cs []
    else splitOnCharAux sep cs (c :: acc)

/-- Rust `str::split(sep)` collected into a list. -/
def splitOnChar (sep : Char) (s : String) : List String :=
  (splitOnCharAux sep s.data []).map String.mk

/-- Decimal digits to a number; `none` on an empty or non-digit input. -/
def parseNatCharsAux : List Char → Nat → Option Nat
  | [], acc => some acc
  | c :: cs, acc =>
    if c.isDigit then parseNatCharsAux cs (acc * 10 + (c.toNat - '0'.toNat)) else none

/-- Parse a non-empty all-digit character sequence as a number. -/
def parseNatChars : List Char → Option Nat
  | [] => none
  | cs => parseNatCharsAux cs 0

/-- Join character sequences with a `:` separator (inverse of a colon split). -/
def joinWithColon : List (List Char) → List Char
  | [] => []
  | [x] => x
  | x :: xs => x ++ ':' :: joinWithColon xs

/-- First index at which `needle` occurs in `hay`, if any. -/
def findSub (hay needle : List Char) : Option Nat :=
  (List.range (hay.length + 1)).find?
    (fun i => ((hay.drop i).take needle.length) == needle)

/-- Rust `str::replacen(pat, to, 1)`: replace the first occurrence of `pat`
(if any). -/
def replaceFirst (s pat repl : String) : String :=
  match findSub s.data pat.data with
  | none => s
  | some i => String.mk (s.data.take i ++ repl.data ++ s.data.drop (i + pat.data.length))

/-- Whether `needle` occurs as a contiguous run inside `hay`. -/
def listContains (needle hay : List Char) : Bool :=
  (List.range (hay.length + 1)).any
    (fun i => ((hay.drop i).take needle.length) == needle)

/-- Modelled from the spec: `extract_grep_position` of the external `pattern`
crate, which is not under the sources being verified. Per the spec it
extracts `(file, line, column, observed_line_text)` from a
`path:line:col:content`-shaped line (the path being the shortest first
match, the content keeping any further colons). -/
def extract_grep_position_spec (line : String) : Option (String × Nat × Nat × String) :=
  match splitOnCharAux ':' line.data [] with
  | fpath :: lnum :: col :: rest@(_ :: _) =>
    match parseNatChars lnum, parseNatChars col with
    | some l, some c => some (String.mk fpath, l, c, String.mk (joinWithColon rest))
    | _, _ => none
  | _ => none

/-- The extraction helpers imported from the `pattern` and `paths` crates
(external to the source under verification), passed in as values. -/
structure ExternFns where
  extract_grep_position : String → Option (String × Nat × Nat × String)
  extract_jump_line_info : String → Option (String × String × Nat × Nat)
  extract_blines_lnum : String → Option Nat
  extract_buf_tags_lnum : String → Option Nat
  extract_proj_tags : String → Option (Nat × String)
  extract_commit_rev : String → Option String
  expand_tilde : String → String

/-- The uniform parse-failure message built by the `err` closure of
`parse_preview_target`. -/
def errMsg (provider_id curline : String) : String :=
  "Failed to parse PreviewTarget for provider_id: " ++ provider_id
    ++ " from `" ++ curline ++ "`"

/-- Fixed part of the message of the unknown-provider arm of
`parse_preview_target`. -/
def unknownProviderMsgStem : String :=
  "Failed to parse PreviewTarget, you probably forget to "
    ++ "add an implementation for this provider: "

/-- The message of the unknown-provider arm of `parse_preview_target`. -/
def unknownProviderMsg (provider_id : String) : String :=
  unknownProviderMsgStem ++ provider_id

/-- Function `parse_preview_target` of the source: the provider-id dispatch table
turning a raw line into a `PreviewTarget` plus the optionally observed line
content. -/
def parse_preview_target (fns : ExternFns) (curline : String) (ctx : Context) :
    Except String (PreviewTarget × Option String) :=
  let e := errMsg ctx.provider_id curline
  match ctx.provider_id with
  | "files" | "git_files" => .ok (.File (pathJoin ctx.cwd curline), none)
  | "recent_files" => .ok (.File curline, none)
  | "history" =>
    let path :=
      if startsWithTilde curline then fns.expand_tilde curline
      else pathJoin ctx.cwd curline
    .ok (.File path, none)
  | "coc_location" | "grep" | "live_grep" | "igrep" =>
    match fns.extract_grep_position curline with
    | none => .error e
    | some (fpath, lnum, _col, cache_line) =>
      .ok (.LineInFile (pathJoin ctx.cwd (stripDotSlash fpath)) lnum, some cache_line)
  | "dumb_jump" =>
    match fns.extract_jump_line_info curline with
    | none => .error e
    | some (_def_kind, fpath, line_number, _col) =>
      .ok (.LineInFile (pathJoin ctx.cwd fpath) line_number, none)
  | "blines" =>
    match fns.extract_blines_lnum curline with
    | none => .error e
    | some line_number => .ok (.LineInFile ctx.env.start_buffer_path line_number, none)
  | "tags" =>
    match fns.extract_buf_tags_lnum curline with
    | none => .error e
    | some line_number => .ok (.LineInFile ctx.env.start_buffer_path line_number, none)
  | "proj_tags" =>
    match fns.extract_proj_tags curline with
    | none => .error e
    | some (line_number, p) =>
      .ok (.LineInFile (pathJoin ctx.cwd p) line_number, none)
  | "commits" | "bcommits" =>
    match fns.extract_commit_rev curline with
    | none => .error e
    | some rev => .ok (.GitCommit rev, none)
  | unknown_provider_id => .error (unknownProviderMsg unknown_provider_id)

/-- Function `should_truncate_cwd_relative` of the source. -/
def should_truncate_cwd_relative (provider_id : String) : Bool :=
  ["files", "git_files", "grep", "live_grep", "coc_location", "dumb_jump",
   "proj_tags"].contains provider_id

/-- Rust `utils::display_width` applied to a line number: the width of its
decimal rendering. -/
def displayWidth (n : Nat) : Nat := (toString n).length

/-- The scrollbar geometry of `preview_file` (lines 406-426 of the source).
`end_` is the number of preview lines shown; the `f32` divide-truncate is
modeled as exact truncated division. -/
def scrollbarFile (env : Env) (end_ total : Nat) : Option (Nat × Nat) :=
  if env.should_add_scrollbar end_ then
    let length := end_ * env.display_winheight / total
    if length = 0 then none
    else
      let length := min env.display_winheight length
      if env.preview_border_enabled then
        some (1, usizeSub length (if length = env.display_winheight then 1 else 0))
      else
        some (0, length)
  else none

/-- Body of the `preview_file_at` scrollbar computation after the
`start.saturating_sub(3)` adjustment, on the adjusted start. -/
def scrollbarCore (env : Env) (start end_ total : Nat) : Option (Nat × Nat) :=
  let length := usizeSub end_ start * env.display_winheight / total
  let top_position := start * env.display_winheight / total
  if length = 0 then none
  else
    let length := min env.display_winheight length
    if env.preview_border_enabled then
      some (max 1 top_position,
        usizeSub length (if length = env.display_winheight then 1 else 0))
    else
      some (top_position, length)

/-- The scrollbar geometry of `preview_file_at` (lines 508-535 of the
source): `start`/`end_` delimit the window, `context_lines_is_empty`
triggers the `start.saturating_sub(3)` compensation. -/
def scrollbarAt (env : Env) (start end_ total : Nat)
    (context_lines_is_empty : Bool) : Option (Nat × Nat) :=
  if env.should_add_scrollbar total then
    scrollbarCore env (if context_lines_is_empty then start - 3 else start) end_ total
  else none

/-- Type `BufferTag` as consumed here: its line number and the result of its
`trimmed_pattern()` accessor (both owned by the external `ctags` module). -/
structure BufferTag where
  line_number : Nat
  trimmed_pattern : String

/-- Function `context_tag_with_timeout` of the source: the outer `none` is the
timeout, which is mapped to no tag. -/
def context_tag_with_timeout (lookup : Option (Option BufferTag)) : Option BufferTag :=
  match lookup with
  | some res => res
  | none => none

/-- The extension deny-list of `fetch_context_lines`. -/
def contextTagBlackList : List String :=
  ["log", "txt", "lock", "toml", "yaml", "mod", "conf"]

/-- Closure `generate_border_line` of `fetch_context_lines`: a box-drawing rule of
width `container_width` (shortened by 2 for Vim). -/
def generate_border_line (container_width : Nat) (is_nvim : Bool) : String :=
  String.mk (List.replicate
    (if is_nvim then container_width else usizeSub container_width 2) '─')

/-- The pattern-line construction inside `fetch_context_lines` (lines
709-721 of the source): character-safe truncation of the tag pattern to
`container_width - 4` bytes with a lightbulb marker. -/
def context_pattern_line (pattern : String) (container_width : Nat) : String :=
  if utf8Len pattern.data > usizeSub container_width 4 then
    String.mk (pattern.data.take
      (usizeSub (usizeSub (usizeSub container_width 4) 4) 2) ++ "..  💡".data)
  else
    String.mk (pattern.data ++ "  💡".data)

/-- Function `fetch_context_lines` of the source. The async structural-tag lookup is
passed in as `tagLookup` (`none` = timed out, `some none` = completed with
no tag); `isComment` stands for `dumb_analyzer::is_comment`. -/
def fetch_context_lines (lines : List String) (highlight_lnum lnum start : Nat)
    (container_width : Nat) (ext : Option String)
    (isComment : String → String → Bool)
    (tagLookup : Option (Option BufferTag)) (is_nvim : Bool) : List String :=
  let _ := lnum
  match lines.get? (usizeSub highlight_lnum 1) with
  | none => []
  | some line =>
    match ext with
    | none => []
    | some e =>
      if contextTagBlackList.contains e || isComment line e then []
      else
        match context_tag_with_timeout tagLookup with
        | some tag =>
          if tag.line_number < start then
            let border_line := generate_border_line container_width is_nvim
            [border_line,
             context_pattern_line tag.trimmed_pattern container_width,
             border_line]
          else []
        | none => []

/-- Enum `SublimeOrTreeSitter` of the source. -/
inductive SublimeOrTreeSitter where
  | Sublime (v : SublimeHighlights)
  | TreeSitter (v : TsHighlights)
  | Neither

/-- Outcome of a Rust call that may also panic. -/
inductive RustOutcome (α : Type) where
  | ok (value : α)
  | err (msg : String)
  | panicked
deriving DecidableEq

/-- Function `preview_commits` of the source, with the bytes of `git show` passed in
as the already-decoded `stdout` string. -/
def preview_commits (preview_height : Nat) (stdout : String) : Preview :=
  let lines := (splitOnChar '\n' stdout).take preview_height
  { Preview.new lines with vim_syntax_info := { syntax_name := "diff", fname := "" } }

/-- Function `preview_help_subject` of the source, with the external
`HelpTagPreview::get_help_lines` result passed in. -/
def preview_help_subject (helpResult : Option (String × List String)) : Preview :=
  match helpResult with
  | some (fname, lines) =>
    { lines := fname :: lines,
      hi_lnum := some 1,
      vim_syntax_info := VimSyntaxInfo.syntax_only "help" }
  | none => Preview.new ["Can not find the preview help lines"]

/-- Last character of a string, used for the `MAIN_SEPARATOR` check. -/
def endsWithSlash (s : String) : Bool := s.data.getLast? == some '/'

/-- Function `preview_directory` of the source, with the `read_dir_entries` result
passed in. -/
def preview_directory (path : String) (entries : Except String (List String)) :
    Except String Preview :=
  match entries with
  | .error e => .error e
  | .ok ls =>
    let ls := if ls.isEmpty then ["<Empty directory>"] else ls
    let title :=
      (if endsWithSlash path then String.mk path.data.dropLast else path) ++ ":"
    .ok (Preview.new (title :: ls))

/-- Function `preview_file` of the source. External effects are passed in:
`titleRead` is the `preview_file_with_truncated_title` result (nvim before
0.9), `plainRead` the `previewer::preview_file` result, `totalRes` the
`count_lines` result, `metaLenRes` the file-size query, and `syntaxOpt` the
`preview_syntax` lookup. The `lines[0]` assignment on an empty read is the
`panicked` outcome. -/
def preview_file (ctx : Context) (path : String) (isFile : Bool)
    (titleRead plainRead : Except String (List String × String))
    (totalRes metaLenRes : Except String Nat)
    (syntaxOpt : Option String) : RustOutcome Preview :=
  if !isFile then
    .err ("Failed to preview as " ++ path ++ " is not a file")
  else
    let readRes : RustOutcome (List String × String) :=
      if ctx.env.is_nvim && !ctx.env.has_nvim_09 then
        match titleRead with
        | .error e => .err e
        | .ok r => .ok r
      else
        match plainRead with
        | .error e => .err e
        | .ok (lines, abs_path) =>
          let cwd_relative := replaceFirst abs_path ctx.cwd "."
          match lines with
          | [] => .panicked
          | _ :: rest => .ok (cwd_relative :: rest, abs_path)
    match readRes with
    | .panicked => .panicked
    | .err e => .err e
    | .ok (lines, fname) =>
      match totalRes with
      | .error e => .err e
      | .ok total =>
        let end_ := lines.length
        let scrollbar := scrollbarFile ctx.env end_ total
        match metaLenRes with
        | .error e => .err e
        | .ok metaLen =>
          if metaLen = 0 then
            .ok (Preview.new_file_preview (lines ++ ["<Empty file>"]) scrollbar
              (VimSyntaxInfo.fname_only fname))
          else
            match syntaxOpt with
            | some syn =>
              .ok (Preview.new_file_preview lines scrollbar
                (VimSyntaxInfo.syntax_only syn))
            | none =>
              .ok (Preview.new_file_preview lines scrollbar
                (VimSyntaxInfo.fname_only fname))

/-- The `truncated_preview_header` closure of `preview_file_at`, with the
external `truncate_absolute_path` passed in as `truncAbs`. -/
def truncated_preview_header (ctx : Context) (fname : String)
    (lnum container_width : Nat) (truncAbs : String → Nat → String) : String :=
  let support_float_title := !ctx.env.is_nvim || ctx.env.has_nvim_09
  if support_float_title && should_truncate_cwd_relative ctx.provider_id then
    replaceFirst fname ctx.cwd "." ++ ":" ++ toString lnum
  else
    let max_fname_len := usizeSub (usizeSub container_width 1) (displayWidth lnum)
    truncAbs fname max_fname_len ++ ":" ++ toString lnum

/-- Type `FilePreview` returned by the external `get_file_preview`. -/
structure FilePreview where
  start : Nat
  end_ : Nat
  total : Nat
  highlight_lnum : Nat
  lines : List String

/-- Function `preview_file_at` of the source. The external pieces are passed in:
`fileRes` is the `get_file_preview` window read, `ext` the path extension,
`isComment`/`tagLookup` feed `fetch_context_lines`, `highlights` is the
`fetch_syntax_highlights` outcome, `syntaxOpt` the `preview_syntax` lookup,
`truncAbs` the path truncation and `truncate` the per-line truncation of
`truncate_preview_lines`. -/
def preview_file_at (ctx : Context) (path : String) (lnum container_width : Nat)
    (fileRes : Except String FilePreview) (ext : Option String)
    (isComment : String → String → Bool) (tagLookup : Option (Option BufferTag))
    (highlights : SublimeOrTreeSitter) (syntaxOpt : Option String)
    (truncAbs : String → Nat → String) (truncate : String → String) : Preview :=
  let fname := path
  let header_line := truncated_preview_header ctx fname lnum container_width truncAbs
  match fileRes with
  | .ok fp =>
    let context_lines := fetch_context_lines fp.lines fp.highlight_lnum lnum fp.start
      container_width ext isComment tagLookup ctx.env.is_nvim
    let highlight_lnum := fp.highlight_lnum + context_lines.length
    let context_lines_is_empty := context_lines.isEmpty
    let lines := header_line :: (context_lines ++ fp.lines.map truncate)
    let scrollbar := scrollbarAt ctx.env fp.start fp.end_ fp.total context_lines_is_empty
    let preview : Preview :=
      { lines := lines, hi_lnum := some highlight_lnum, scrollbar := scrollbar }
    match highlights with
    | .Sublime v => { preview with sublime_syntax_highlights := v }
    | .TreeSitter v => { preview with tree_sitter_highlights := v }
    | .Neither =>
      match syntaxOpt with
      | some syn =>
        { preview with vim_syntax_info := { preview.vim_syntax_info with syntax_name := syn } }
      | none =>
        { preview with vim_syntax_info := { preview.vim_syntax_info with fname := fname } }
  | .error err =>
    { lines := [header_line, "Error while previewing " ++ path ++ ": " ++ err],
      vim_syntax_info := VimSyntaxInfo.fname_only fname }

/-- Function `get_preview` of the source (lines 267-297): the cache-read / compute /
cache-write sequence. The dispatch on the target variant is passed in as
`compute`; the returned triple is `(result, cache insertions performed,
compute calls performed)`, the latter two recording the side effects. -/
def get_preview (cache : PreviewTarget → Option Preview)
    (compute : PreviewTarget → Except String Preview) (target : PreviewTarget) :
    Except String (PreviewTarget × Preview)
      × List (PreviewTarget × Preview) × List PreviewTarget :=
  match cache target with
  | some preview => (.ok (target, preview), [], [])
  | none =>
    match compute target with
    | .ok preview => (.ok (target, preview), [(target, preview)], [target])
    | .error e => (.error e, [], [target])

/-- The provider ids handled by the dispatch table of
`parse_preview_target`. -/
def knownProviderIds : List String :=
  ["files", "git_files", "recent_files", "history", "coc_location", "grep",
   "live_grep", "igrep", "dumb_jump", "blines", "tags", "proj_tags",
   "commits", "bcommits"]

/-- Mutual exclusion of the two highlight span fields of a `Preview`. -/
def mutexHighlights (p : Preview) : Prop :=
  p.sublime_syntax_highlights = [] ∨ p.tree_sitter_highlights = []

/-- Fixture: a plain editor environment used by concrete witnesses. -/
def envX : Env :=
  { is_nvim := false, has_nvim_09 := false, icon_enabled := false,
    display_line_width := 40, display_winheight := 10,
    preview_border_enabled := false, should_add_scrollbar := fun _ => false,
    start_buffer_path := "/buf" }

/-- Fixture: an environment whose scrollbar is always requested, with a
border and a one-row window. -/
def envBorder1 : Env :=
  { envX with
    display_winheight := 1
    preview_border_enabled := true
    should_add_scrollbar := fun _ => true }

/-- Fixture: an environment whose scrollbar is always requested, without a
border and with a two-row window. -/
def envScroll2 : Env :=
  { envX with
    display_winheight := 2
    should_add_scrollbar := fun _ => true }

/-- Fixture: external extraction helpers with the grep extractor set to the
spec-modelled one. -/
def fnsX : ExternFns :=
  { extract_grep_position := extract_grep_position_spec,
    extract_jump_line_info := fun _ => none,
    extract_blines_lnum := fun _ => none,
    extract_buf_tags_lnum := fun _ => none,
    extract_proj_tags := fun _ => none,
    extract_commit_rev := fun _ => none,
    expand_tilde := fun s => s }

/-- Fixture: the grep-provider context of the spec's concrete scenario A. -/
def ctxGrep : Context := { provider_id := "grep", cwd := "/repo", env := envX }

/-- Fixture: an unknown-provider context. -/
def ctxFrob : Context :=
  { provider_id := "frobnicate", cwd := "/repo", env := envX }

/-- Fixture: a file-provider context with working directory `/a`. -/
def ctxFile : Context := { provider_id := "files", cwd := "/a", env := envX }

theorem usizeSub_of_le {a b : Nat} (h : b ≤ a) : usizeSub a b = a - b := by
  simp [usizeSub, h]

theorem length_le_utf8Len (cs : List Char) : cs.length ≤ utf8Len cs := by
  induction cs with
  | nil => simp [utf8Len]
  | cons c cs ih =>
    have := Char.utf8Size_pos c
    simp only [utf8Len, List.length_cons]
    omega

theorem listContains_suffix (pre needle : List Char) :
    listContains needle (pre ++ needle) = true := by
  unfold listContains
  rw [List.any_eq_true]
  refine ⟨pre.length, List.mem_range.mpr ?_, ?_⟩
  · simp [Nat.lt_succ_iff]
  · rw [List.drop_left, List.take_length]
    simp

/-- C1: the spec claims `get_preview` never panics, and in particular that
the byte-slice of preview lines at `max_line_width` in the sublime-syntax
branch is panic-free. It is not: slicing a line of 14 three-byte characters
(42 bytes) at `max_line_width = 40` hits byte index 40, which is not a
character boundary, so `&s[..len]` in `fetch_syntax_highlights` panics
(modeled as `none`). -/
theorem sublime_slice_panics_on_multibyte :
    sublimePrepLines [List.replicate 14 'あ'] 40 = none := by decide

/-- C2: `get_preview` returns the cached `Preview` unchanged on a hit, with
no cache insertion and no recomputation; on a miss that computes
successfully it performs exactly one insertion, keyed by the target, of the
`Preview` it returns. -/
theorem get_preview_cache_contract :
    ∀ (cache : PreviewTarget → Option Preview)
      (compute : PreviewTarget → Except String Preview) (target : PreviewTarget),
      (∀ p, cache target = some p →
        get_preview cache compute target = (.ok (target, p), [], [])) ∧
      (∀ p, cache target = none → compute target = .ok p →
        get_preview cache compute target
          = (.ok (target, p), [(target, p)], [target])) := by
  intro cache compute target
  constructor
  · intro p h
    simp [get_preview, h]
  · intro p h hc
    simp [get_preview, h, hc]

/-- Witness for C2: a concrete cache hit returns the cached preview with no
effects, and a concrete miss returns the computed preview with exactly one
insertion. -/
theorem get_preview_cache_contract_witness :
    get_preview (fun _ => some (Preview.new ["c"])) (fun _ => .error "e")
        (.File "a")
      = (.ok (.File "a", Preview.new ["c"]), [], []) ∧
    get_preview (fun _ => none) (fun _ => .ok (Preview.new ["m"])) (.File "a")
      = (.ok (.File "a", Preview.new ["m"]),
         [(.File "a", Preview.new ["m"])], [.File "a"]) :=
  ⟨(get_preview_cache_contract _ _ _).1 _ rfl,
   (get_preview_cache_contract _ _ _).2 _ rfl rfl⟩

/-- C3: resolving the raw line `src/main.rs:42:5:    let x = 1;` under
provider `grep` with working directory `/repo` yields
`LineInFile /repo/src/main.rs 42` with observed text `    let x = 1;`
(with the external grep extractor modelled from the spec), and resolution
is deterministic: equal inputs give equal results. -/
theorem parse_preview_target_grep_scenario :
    (∀ (fns : ExternFns) (env : Env),
      fns.extract_grep_position = extract_grep_position_spec →
      parse_preview_target fns "src/main.rs:42:5:    let x = 1;"
          { provider_id := "grep", cwd := "/repo", env := env }
        = .ok (.LineInFile "/repo/src/main.rs" 42, some "    let x = 1;")) ∧
    (∀ (fns : ExternFns) (curline : String) (ctx : Context)
       (r₁ r₂ : Except String (PreviewTarget × Option String)),
      parse_preview_target fns curline ctx = r₁ →
      parse_preview_target fns curline ctx = r₂ → r₁ = r₂) := by
  constructor
  · intro fns env h
    unfold parse_preview_target
    rw [h]
    rfl
  · intro fns curline ctx r₁ r₂ h₁ h₂
    rw [← h₁, ← h₂]

/-- Witness for C3: the concrete scenario with the spec-modelled extractor,
and determinism at a concrete input. -/
theorem parse_preview_target_grep_scenario_witness :
    parse_preview_target fnsX "src/main.rs:42:5:    let x = 1;" ctxGrep
      = .ok (.LineInFile "/repo/src/main.rs" 42, some "    let x = 1;") ∧
    (Except.error (errMsg "grep" "zz") :
        Except String (PreviewTarget × Option String))
      = .error (errMsg "grep" "zz") :=
  ⟨parse_preview_target_grep_scenario.1 fnsX envX rfl,
   parse_preview_target_grep_scenario.2 fnsX "zz" ctxGrep _ _ rfl rfl⟩

/-- C4 counterexample: for the unknown provider id `frobnicate` and the
input line `hello world`, `parse_preview_target` does return an error and
the error names the provider id, but the message does not contain the
offending input line, contrary to the claim. -/
theorem unknown_provider_error_omits_line :
    parse_preview_target fnsX "hello world" ctxFrob
      = .error (unknownProviderMsg "frobnicate") ∧
    listContains "frobnicate".data (unknownProviderMsg "frobnicate").data = true ∧
    listContains "hello world".data (unknownProviderMsg "frobnicate").data = false := by
  refine ⟨rfl, by decide, by decide⟩

/-- C4 amended: for every provider id outside the dispatch table and every
input line, `parse_preview_target` returns an error (never a silent
default) whose message names the unknown provider id; the input line is not
part of that message. -/
theorem unknown_provider_always_errors :
    ∀ (fns : ExternFns) (curline : String) (ctx : Context),
      ctx.provider_id ∉ knownProviderIds →
      parse_preview_target fns curline ctx
        = .error (unknownProviderMsg ctx.provider_id) ∧
      listContains ctx.provider_id.data
          (unknownProviderMsg ctx.provider_id).data = true := by
  intro fns curline ctx h
  constructor
  · unfold parse_preview_target
    split <;> simp_all [knownProviderIds]
  · rw [unknownProviderMsg, String.data_append]
    exact listContains_suffix _ _

/-- Witness for C4 amended: the unknown provider `frobnicate` with a
concrete line. -/
theorem unknown_provider_always_errors_witness :
    parse_preview_target fnsX "some line" ctxFrob
      = .error (unknownProviderMsg "frobnicate") ∧
    listContains "frobnicate".data (unknownProviderMsg "frobnicate").data = true :=
  unknown_provider_always_errors fnsX "some line" ctxFrob (by decide)

/-- C5: every `Preview` produced by the operations of this module has at
most one of the two highlight span fields non-empty: the dispatcher returns
exactly one of Sublime, TreeSitter or Neither and `preview_file_at`
populates at most one field from it, while every other builder leaves both
fields empty. -/
theorem highlight_fields_mutually_exclusive :
    ∀ (preview_height : Nat) (stdout : String)
      (helpResult : Option (String × List String))
      (dpath : String) (entries : Except String (List String))
      (ctx : Context) (path : String) (isFile : Bool)
      (titleRead plainRead : Except String (List String × String))
      (totalRes metaLenRes : Except String Nat) (syntaxOpt : Option String)
      (lnum container_width : Nat) (fileRes : Except String FilePreview)
      (ext : Option String) (isComment : String → String → Bool)
      (tagLookup : Option (Option BufferTag)) (highlights : SublimeOrTreeSitter)
      (truncAbs : String → Nat → String) (truncate : String → String),
      mutexHighlights (preview_commits preview_height stdout) ∧
      mutexHighlights (preview_help_subject helpResult) ∧
      (∀ p, preview_directory dpath entries = .ok p → mutexHighlights p) ∧
      (∀ p, preview_file ctx path isFile titleRead plainRead totalRes metaLenRes
          syntaxOpt = .ok p → mutexHighlights p) ∧
      mutexHighlights (preview_file_at ctx path lnum container_width fileRes ext
        isComment tagLookup highlights syntaxOpt truncAbs truncate) := by
  intro preview_height stdout helpResult dpath entries ctx path isFile titleRead
    plainRead totalRes metaLenRes syntaxOpt lnum container_width fileRes ext
    isComment tagLookup highlights truncAbs truncate
  refine ⟨Or.inl rfl, ?_, ?_, ?_, ?_⟩
  · cases helpResult <;> exact Or.inl rfl
  · intro p h
    cases entries with
    | error e => simp [preview_directory] at h
    | ok ls =>
      simp only [preview_directory, Except.ok.injEq] at h
      exact Or.inl (h ▸ rfl)
  · intro p h
    unfold preview_file at h
    repeat' split at h
    all_goals simp at h
    all_goals (subst h; exact Or.inl rfl)
  · cases fileRes with
    | error e => exact Or.inl rfl
    | ok fp =>
      cases highlights with
      | Sublime v => exact Or.inr rfl
      | TreeSitter v => exact Or.inl rfl
      | Neither => cases syntaxOpt <;> exact Or.inl rfl

/-- Witness for C5: concrete previews from each operation, including a
cache-directory hit, a plain file preview and an error-path windowed
preview, all with mutually exclusive highlight fields. -/
theorem highlight_fields_mutually_exclusive_witness :
    mutexHighlights (preview_commits 2 "a\nb") ∧
    mutexHighlights (preview_help_subject none) ∧
    mutexHighlights (Preview.new ["d:", "e"]) ∧
    mutexHighlights (Preview.new_file_preview ["./f", "l"] none
      (VimSyntaxInfo.fname_only "/a/f")) ∧
    mutexHighlights (preview_file_at ctxFile "/a/f" 1 10 (.error "gone") none
      (fun _ _ => false) none .Neither none (fun s _ => s) (fun s => s)) := by
  have h := highlight_fields_mutually_exclusive 2 "a\nb" none "d" (.ok ["e"])
    ctxFile "/a/f" true (.error "unused") (.ok (["t", "l"], "/a/f")) (.ok 2)
    (.ok 5) none 1 10 (.error "gone") none (fun _ _ => false) none .Neither
    (fun s _ => s) (fun s => s)
  exact ⟨h.1, h.2.1, h.2.2.1 _ rfl, h.2.2.2.1 _ rfl, h.2.2.2.2⟩

theorem scrollbarFile_eq_none_iff (env : Env) (end_ total : Nat) :
    scrollbarFile env end_ total = none ↔
      (env.should_add_scrollbar end_ = false ∨
       end_ * env.display_winheight / total = 0) := by
  by_cases h1 : env.should_add_scrollbar end_ <;>
    by_cases h2 : end_ * env.display_winheight / total = 0 <;>
      by_cases h3 : env.preview_border_enabled <;>
        simp [scrollbarFile, h1, h2, h3]

theorem scrollbarFile_some_bounds (env : Env) (end_ total top len : Nat)
    (h : scrollbarFile env end_ total = some (top, len)) :
    len ≤ env.display_winheight ∧ top ≤ env.display_winheight := by
  unfold scrollbarFile at h
  by_cases h1 : env.should_add_scrollbar end_ <;> simp [h1] at h
  by_cases h2 : end_ * env.display_winheight / total = 0 <;> simp [h2] at h
  have hwh : 1 ≤ env.display_winheight := by
    by_contra hc
    have h0 : env.display_winheight = 0 := by omega
    simp [h0] at h2
  have hdivpos : 1 ≤ end_ * env.display_winheight / total :=
    Nat.one_le_iff_ne_zero.mpr h2
  set L := min env.display_winheight (end_ * env.display_winheight / total) with hL
  have hmin : L ≤ env.display_winheight := Nat.min_le_left _ _
  have hminpos : 1 ≤ L := le_min hwh hdivpos
  have hite : (if env.display_winheight ≤ end_ * env.display_winheight / total
      then 1 else 0) ≤ L := by
    split <;> omega
  by_cases h3 : env.preview_border_enabled
  · rw [if_pos h3, usizeSub_of_le hite] at h
    simp only [Option.some.injEq, Prod.mk.injEq] at h
    obtain ⟨h4, h5⟩ := h
    omega
  · rw [if_neg h3] at h
    simp only [Option.some.injEq, Prod.mk.injEq] at h
    obtain ⟨h4, h5⟩ := h
    omega

theorem scrollbarCore_eq_none_iff (env : Env) (start end_ total : Nat) :
    scrollbarCore env start end_ total = none ↔
      usizeSub end_ start * env.display_winheight / total = 0 := by
  by_cases h2 : usizeSub end_ start * env.display_winheight / total = 0 <;>
    by_cases h3 : env.preview_border_enabled <;>
      simp [scrollbarCore, h2, h3]

theorem scrollbarCore_some_bounds (env : Env) (start end_ total top len : Nat)
    (hstart : start ≤ total)
    (h : scrollbarCore env start end_ total = some (top, len)) :
    len ≤ env.display_winheight ∧ top ≤ env.display_winheight := by
  unfold scrollbarCore at h
  by_cases h2 : usizeSub end_ start * env.display_winheight / total = 0 <;>
    simp [h2] at h
  have htotal : 0 < total := by
    by_contra hc
    have h0 : total = 0 := by omega
    simp [h0] at h2
  have hwh : 1 ≤ env.display_winheight := by
    by_contra hc
    have h0 : env.display_winheight = 0 := by omega
    simp [h0] at h2
  have hdivpos : 1 ≤ usizeSub end_ start * env.display_winheight / total :=
    Nat.one_le_iff_ne_zero.mpr h2
  have htop : start * env.display_winheight / total ≤ env.display_winheight := by
    calc start * env.display_winheight / total
        ≤ total * env.display_winheight / total :=
          Nat.div_le_div_right (Nat.mul_le_mul_right _ hstart)
      _ = env.display_winheight := Nat.mul_div_cancel_left _ htotal
  set L := min env.display_winheight
    (usizeSub end_ start * env.display_winheight / total) with hL
  have hmin : L ≤ env.display_winheight := Nat.min_le_left _ _
  have hminpos : 1 ≤ L := le_min hwh hdivpos
  have hite : (if env.display_winheight
      ≤ usizeSub end_ start * env.display_winheight / total
      then 1 else 0) ≤ L := by
    split <;> omega
  have hmax : max 1 (start * env.display_winheight / total)
      ≤ env.display_winheight := max_le hwh htop
  by_cases h3 : env.preview_border_enabled
  · rw [if_pos h3, usizeSub_of_le hite] at h
    simp only [Option.some.injEq, Prod.mk.injEq] at h
    obtain ⟨h4, h5⟩ := h
    omega
  · rw [if_neg h3] at h
    simp only [Option.some.injEq, Prod.mk.injEq] at h
    obtain ⟨h4, h5⟩ := h
    omega

/-- C6 counterexample: with a border enabled and a one-row window, a
scrollbar is emitted whose thumb length is 0 (the border compensation
shrinks a full-height thumb to nothing) even though
`visible_rows * window_height < total_rows` is false, refuting the claimed
equivalence. Every value involved is exactly representable in `f32`, so the
exact-division model agrees with the source here. -/
theorem scrollbar_zero_thumb_shown :
    scrollbarFile envBorder1 1 1 = some (1, 0) ∧ ¬ (1 * 1 < 1) := by
  exact ⟨rfl, by decide⟩

/-- C6 amended: when the scrollbar is requested and `total > 0`, the
scrollbar is absent exactly when `visible_rows * window_height <
total_rows` (for the windowed variant, visible rows are counted from the
adjusted start); whenever a scrollbar is emitted its thumb length is at
most the window height (it can reach 0 under the border adjustment) and
its top position lies within `[0, window_height]`. -/
theorem scrollbar_geometry :
    ∀ (env : Env) (start end_ total : Nat) (b : Bool),
      0 < total →
      (env.should_add_scrollbar end_ = true →
        ((scrollbarFile env end_ total = none ↔
            end_ * env.display_winheight < total) ∧
         ∀ top len, scrollbarFile env end_ total = some (top, len) →
           len ≤ env.display_winheight ∧ top ≤ env.display_winheight)) ∧
      (env.should_add_scrollbar total = true → start ≤ end_ → end_ ≤ total →
        ((scrollbarAt env start end_ total b = none ↔
            (end_ - (if b then start - 3 else start)) * env.display_winheight
              < total) ∧
         ∀ top len, scrollbarAt env start end_ total b = some (top, len) →
           len ≤ env.display_winheight ∧ top ≤ env.display_winheight)) := by
  intro env start end_ total b htotal
  constructor
  · intro hs
    constructor
    · rw [scrollbarFile_eq_none_iff]
      simp [hs]
      exact Nat.div_eq_zero_iff htotal
    · intro top len h
      exact scrollbarFile_some_bounds env end_ total top len h
  · intro hs hse het
    have hadj : (if b then start - 3 else start) ≤ start := by split <;> omega
    have hstart : (if b then start - 3 else start) ≤ total := by omega
    have husize : usizeSub end_ (if b then start - 3 else start)
        = end_ - (if b then start - 3 else start) :=
      usizeSub_of_le (by omega)
    constructor
    · simp only [scrollbarAt, hs, if_true]
      rw [scrollbarCore_eq_none_iff, husize]
      exact Nat.div_eq_zero_iff htotal
    · intro top len h
      simp only [scrollbarAt, hs, if_true] at h
      exact scrollbarCore_some_bounds env _ end_ total top len hstart h

/-- Witness for C6 amended: a two-row borderless window over a one-line
file, for both scrollbar variants. -/
theorem scrollbar_geometry_witness :
    (scrollbarFile envScroll2 1 1 = none ↔ 1 * 2 < 1) ∧
    (scrollbarAt envScroll2 0 1 1 false = none ↔ (1 - 0) * 2 < 1) := by
  have h := scrollbar_geometry envScroll2 0 1 1 false (by decide)
  exact ⟨(h.1 rfl).1, (h.2 rfl (by decide) (by decide)).1⟩

/-- C7: `fetch_context_lines` returns exactly 3 lines (border, pattern
line, border, with identical borders) when the tag lookup yields a tag
strictly before the window start and no skip condition applies, and 0
lines when there is no tag (or the lookup timed out), when the tag is at or
after the window start, when the extension is deny-listed, or when the
highlighted line is a comment; in every case the result has length 0 or 3. -/
theorem fetch_context_lines_three_or_zero :
    ∀ (lines : List String) (highlight_lnum lnum start container_width : Nat)
      (ext : Option String) (isComment : String → String → Bool)
      (tagLookup : Option (Option BufferTag)) (is_nvim : Bool),
      ((fetch_context_lines lines highlight_lnum lnum start container_width ext
          isComment tagLookup is_nvim).length = 0 ∨
       (fetch_context_lines lines highlight_lnum lnum start container_width ext
          isComment tagLookup is_nvim).length = 3) ∧
      (tagLookup = none ∨ tagLookup = some none →
        fetch_context_lines lines highlight_lnum lnum start container_width ext
          isComment tagLookup is_nvim = []) ∧
      (∀ t, tagLookup = some (some t) → start ≤ t.line_number →
        fetch_context_lines lines highlight_lnum lnum start container_width ext
          isComment tagLookup is_nvim = []) ∧
      (∀ e, ext = some e → contextTagBlackList.contains e = true →
        fetch_context_lines lines highlight_lnum lnum start container_width ext
          isComment tagLookup is_nvim = []) ∧
      (∀ l e, lines.get? (usizeSub highlight_lnum 1) = some l → ext = some e →
        isComment l e = true →
        fetch_context_lines lines highlight_lnum lnum start container_width ext
          isComment tagLookup is_nvim = []) ∧
      (∀ l e t, lines.get? (usizeSub highlight_lnum 1) = some l → ext = some e →
        contextTagBlackList.contains e = false → isComment l e = false →
        tagLookup = some (some t) → t.line_number < start →
        fetch_context_lines lines highlight_lnum lnum start container_width ext
          isComment tagLookup is_nvim
          = [generate_border_line container_width is_nvim,
             context_pattern_line t.trimmed_pattern container_width,
             generate_border_line container_width is_nvim]) := by
  intro lines highlight_lnum lnum start container_width ext isComment tagLookup
    is_nvim
  refine ⟨?_, ?_, ?_, ?_, ?_, ?_⟩
  · unfold fetch_context_lines
    repeat' split
    all_goals simp
  · intro h
    rcases h with h | h <;> subst h <;>
      (unfold fetch_context_lines
       repeat' split <;> simp_all [context_tag_with_timeout])
  · intro t ht hstart
    subst ht
    unfold fetch_context_lines
    repeat' split <;> simp_all [context_tag_with_timeout]
  · intro e he hbl
    subst he
    unfold fetch_context_lines
    repeat' split <;> simp_all
  · intro l e hget hext hcom
    subst hext
    unfold fetch_context_lines
    repeat' split <;> simp_all
  · intro l e t hget hext hbl hcom htag hlt
    subst hext
    subst htag
    unfold fetch_context_lines
    repeat' split <;> simp_all [context_tag_with_timeout]

/-- Witness for C7: a concrete tag two lines above a window starting at
line 5 yields the three context lines with identical borders. -/
theorem fetch_context_lines_three_or_zero_witness :
    fetch_context_lines ["let a = 1;"] 1 10 5 20 (some "rs") (fun _ _ => false)
        (some (some ⟨2, "fn main()"⟩)) true
      = [generate_border_line 20 true, context_pattern_line "fn main()" 20,
         generate_border_line 20 true] := by
  have h := fetch_context_lines_three_or_zero ["let a = 1;"] 1 10 5 20
    (some "rs") (fun _ _ => false) (some (some ⟨2, "fn main()"⟩)) true
  exact h.2.2.2.2.2 "let a = 1;" "rs" ⟨2, "fn main()"⟩ rfl rfl rfl rfl rfl
    (by decide)

/-- C8 counterexample: with `container_width = 4` and the one-character
pattern `a`, the `container_width - 4` and `max_pattern_len - 4 - 2`
subtractions wrap, no truncation happens, and the resulting pattern line
`a..  💡` has 6 characters, exceeding the container width of 4 — refuting
the claimed bound (the construction itself stays character-safe). -/
theorem context_pattern_line_exceeds_width :
    (context_pattern_line "a" 4).length = 6 ∧
    ¬ ((context_pattern_line "a" 4).length ≤ 4) := by
  exact ⟨by decide, by decide⟩

/-- C8 amended: the pattern-line construction is character-safe for every
input (the output is always a whole-character prefix of the pattern
followed by a marker, never a mid-character byte slice), and whenever
`container_width ≥ 10` the character length of the pattern line is at most
`container_width`; for smaller widths the wrapped subtractions void the
bound. -/
theorem context_pattern_line_bounds :
    ∀ (pattern : String) (container_width : Nat),
      (10 ≤ container_width →
        (context_pattern_line pattern container_width).length
          ≤ container_width) ∧
      (∃ n, (context_pattern_line pattern container_width).data
          = pattern.data.take n ++ "..  💡".data ∨
        (context_pattern_line pattern container_width).data
          = pattern.data ++ "  💡".data) := by
  intro p cw
  constructor
  · intro h10
    unfold context_pattern_line
    have h1 : usizeSub cw 4 = cw - 4 := usizeSub_of_le (by omega)
    have h2 : usizeSub (cw - 4) 4 = cw - 8 := usizeSub_of_le (by omega)
    have h3 : usizeSub (cw - 8) 2 = cw - 10 := usizeSub_of_le (by omega)
    rw [h1, h2, h3]
    have hm : ("..  💡".data).length = 5 := rfl
    have hm2 : ("  💡".data).length = 3 := rfl
    have ht := List.length_take (cw - 10) p.data
    have hb := length_le_utf8Len p.data
    split
    · simp only [String.length, List.length_append, hm]
      omega
    · simp only [String.length, List.length_append, hm2]
      omega
  · unfold context_pattern_line
    split
    · exact ⟨_, Or.inl rfl⟩
    · exact ⟨0, Or.inr rfl⟩

/-- Witness for C8 amended: a 16-character pattern in a width-12 container
stays within the bound and is a character prefix plus marker. -/
theorem context_pattern_line_bounds_witness :
    (context_pattern_line "abcdefghijklmnop" 12).length ≤ 12 ∧
    (∃ n, (context_pattern_line "abcdefghijklmnop" 12).data
        = "abcdefghijklmnop".data.take n ++ "..  💡".data ∨
      (context_pattern_line "abcdefghijklmnop" 12).data
        = "abcdefghijklmnop".data ++ "  💡".data) := by
  have h := context_pattern_line_bounds "abcdefghijklmnop" 12
  exact ⟨h.1 (by decide), h.2⟩

/-- C9: when the window read fails, `preview_file_at` returns exactly two
lines — the same header the success path would build, then the literal
error line — with only the fallback filename populated in the syntax info,
no highlight spans, no highlighted line number and no scrollbar. -/
theorem preview_file_at_error_shape :
    ∀ (ctx : Context) (path : String) (lnum container_width : Nat) (e : String)
      (ext : Option String) (isComment : String → String → Bool)
      (tagLookup : Option (Option BufferTag)) (highlights : SublimeOrTreeSitter)
      (syntaxOpt : Option String) (truncAbs : String → Nat → String)
      (truncate : String → String),
      preview_file_at ctx path lnum container_width (.error e) ext isComment
          tagLookup highlights syntaxOpt truncAbs truncate
        = { lines := [truncated_preview_header ctx path lnum container_width
              truncAbs,
              "Error while previewing " ++ path ++ ": " ++ e],
            vim_syntax_info := { syntax_name := "", fname := path },
            sublime_syntax_highlights := [],
            tree_sitter_highlights := [],
            hi_lnum := none,
            scrollbar := none } ∧
      (∀ fp : FilePreview,
        (preview_file_at ctx path lnum container_width (.ok fp) ext isComment
            tagLookup highlights syntaxOpt truncAbs truncate).lines.head?
          = some (truncated_preview_header ctx path lnum container_width
              truncAbs)) := by
  intro ctx path lnum container_width e ext isComment tagLookup highlights
    syntaxOpt truncAbs truncate
  constructor
  · rfl
  · intro fp
    cases highlights with
    | Sublime v => rfl
    | TreeSitter v => rfl
    | Neither => cases syntaxOpt <;> rfl

/-- C10: a `File` target whose metadata reports size zero (with a
successful read) yields a preview whose last line is the literal
`<Empty file>` and whose syntax info carries only the fallback filename —
the extension-based syntax lookup is skipped even when it would resolve. -/
theorem preview_file_zero_byte :
    ∀ (ctx : Context) (path : String) (isFile : Bool)
      (titleRead plainRead : Except String (List String × String))
      (totalRes : Except String Nat) (syntaxOpt : Option String) (p : Preview),
      preview_file ctx path isFile titleRead plainRead totalRes (.ok 0)
          syntaxOpt = .ok p →
      p.lines.getLast? = some "<Empty file>" ∧
      p.vim_syntax_info.syntax_name = "" ∧
      (∃ f, p.vim_syntax_info = VimSyntaxInfo.fname_only f) := by
  intro ctx path isFile titleRead plainRead totalRes syntaxOpt p h
  unfold preview_file at h
  repeat' split at h
  all_goals simp at h
  all_goals try subst h
  all_goals first
    | (simp_all; done)
    | (refine ⟨?_, rfl, ⟨_, rfl⟩⟩
       first
         | exact List.getLast?_concat _
         | (rw [← List.cons_append]; exact List.getLast?_concat _))

/-- Witness for C10: a concrete zero-byte file read, with an extension that
would resolve to the syntax name `rust`, still falls back to the filename. -/
theorem preview_file_zero_byte_witness :
    (Preview.new_file_preview ["./f", "l", "<Empty file>"] none
        (VimSyntaxInfo.fname_only "/a/f")).lines.getLast?
      = some "<Empty file>" ∧
    (Preview.new_file_preview ["./f", "l", "<Empty file>"] none
        (VimSyntaxInfo.fname_only "/a/f")).vim_syntax_info.syntax_name = "" ∧
    (∃ f, (Preview.new_file_preview ["./f", "l", "<Empty file>"] none
        (VimSyntaxInfo.fname_only "/a/f")).vim_syntax_info
      = VimSyntaxInfo.fname_only f) :=
  preview_file_zero_byte ctxFile "/a/f" true (.error "unused")
    (.ok (["t", "l"], "/a/f")) (.ok 2) (some "rust") _ rfl
